import Mathlib

/-!
Verification of the DRecPy interaction-dataset engine and ranking-evaluation
pipeline, shallowly embedded in Lean 4.

`InteractionDatasetABC` (src/DRecPy/Dataset/dataset_abc.py) provides the
concrete methods `select_one`, `exists`, `count_unique`, `values_list`,
`_handle_columns`, and declares the abstract interface (`select`, `values`,
`null_interaction_pair_generator`, ...).  The abstract methods and the
`ranking_evaluation` pipeline have no implementation under src/, so they are
modelled from the specification (spec.md §4.3–§4.5) and from the observable
behaviour fixed by src/tests/Evaluation/Processes/test_ranking_evaluation.py;
each such definition carries a doc comment starting `Modelled from the spec:`.
-/

namespace DRecPy

/-- A dataset row: user internal id, item internal id, interaction value.
Only the columns the modelled operations inspect are kept. -/
structure Row where
  uid : Nat
  iid : Nat
  value : Int
deriving DecidableEq, Repr

/-- An interaction store is an ordered collection of rows. -/
abbrev Store := List Row

/-- Positivity predicate of spec.md §3 and dataset_abc.py lines 54-58: with a
threshold, values greater than or equal to it are positive; with no threshold,
any present interaction is positive. -/
def thresholdOk (t : Option Int) (v : Int) : Bool :=
  match t with
  | none => true
  | some t => t ≤ v

/-- A (uid, iid) pair is positive when some row of the store carries it with a
value that satisfies the threshold predicate. -/
def positivePair (ds : Store) (t : Option Int) (u i : Nat) : Bool :=
  ds.any (fun r => r.uid == u && r.iid == i && thresholdOk t r.value)

/-- Distinct user internal ids of a store, in first-seen order. -/
def uidsOf (ds : Store) : List Nat :=
  (ds.map Row.uid).dedup

/-- Distinct item internal ids of a store, in first-seen order. -/
def iidsOf (ds : Store) : List Nat :=
  (ds.map Row.iid).dedup

/-- Every (uid, iid) combination over the store's users and items. -/
def allPairs (ds : Store) : List (Nat × Nat) :=
  (uidsOf ds).product (iidsOf ds)

/-- Linear congruential step of the modelled pseudo-random source. -/
def lcg (s : Nat) : Nat :=
  (s * 1103515245 + 12345) % 2147483648

/-- Remove the element at index `i`, returning it together with the remaining
list; `none` when the index is out of range. -/
def extractAt : Nat → List α → Option (α × List α)
  | _, [] => none
  | 0, x :: xs => some (x, xs)
  | n + 1, x :: xs => (extractAt n xs).map (fun p => (p.1, x :: p.2))

/-- Fuelled seeded shuffle: repeatedly extract a pseudo-randomly chosen
element.  The fuel equals the list length at the top-level call. -/
def shuffleFuel : Nat → Nat → List α → List α
  | 0, _, _ => []
  | _, _, [] => []
  | fuel + 1, s, x :: xs =>
    match extractAt (s % (x :: xs).length) (x :: xs) with
    | none => []
    | some (y, rest) => y :: shuffleFuel fuel (lcg s) rest

/-- Seeded uniform shuffle used by the modelled sampling generators. -/
def shuffle (seed : Nat) (xs : List α) : List α :=
  shuffleFuel xs.length (lcg seed) xs

/-- Modelled from the spec: `null_interaction_pair_generator` is abstract in
dataset_abc.py (lines 50-66) and its concrete implementation is not under
src/.  Per spec.md §4.3 it lazily yields (uid, iid) negative pairs sampled
uniformly at random from the complement of the positive set defined by the
threshold predicate, without repetition within one generator lifetime, from a
seedable pseudo-random source.  The generator's full yield sequence is
modelled as the seeded shuffle of the complement of the positive pairs. -/
def null_interaction_pair_generator (ds : Store) (t : Option Int) (seed : Nat) :
    List (Nat × Nat) :=
  shuffle seed ((allPairs ds).filter (fun p => !positivePair ds t p.1 p.2))

/-! ### Query engine view: `select`, `values`, `select_one`, `exists` -/

/-- Modelled from the spec: `select` is abstract in dataset_abc.py (lines
20-34); per spec.md §4.1 it returns a store containing only the rows matching
the query, preserving relative row order.  The parsed query is modelled as a
row predicate. -/
def select (ds : Store) (q : Row → Bool) : Store :=
  ds.filter q

/-- Modelled from the spec: `values` is abstract in dataset_abc.py (lines
170-182); it yields every record of the dataset in order. -/
def values (ds : Store) : List Row :=
  ds

/-- dataset_abc.py line 80: `next(self.select(query).values(...), None)` —
the first record produced by `values` over the selection, or none. -/
def select_one (ds : Store) (q : Row → Bool) : Option Row :=
  (values (select ds q)).head?

/-- dataset_abc.py line 118: `False if self.select_one(query) is None else
True`. -/
def exists_query (ds : Store) (q : Row → Bool) : Bool :=
  match select_one ds q with
  | none => false
  | some _ => true

/-! ### `_handle_columns` (dataset_abc.py lines 341-348) -/

/-- The `columns` argument of the record-producing operations: Python `None`,
a bare (non-list) column name, or a list of column names. -/
inductive ColumnsArg
  | nil
  | single (c : String)
  | list (cs : List String)
deriving DecidableEq, Repr

/-- The assertion loop of `_handle_columns`: the first requested column absent
from the schema raises `Unexpected column "<c>"`; otherwise the requested
list is returned. -/
def checkColumns (schema cs : List String) : Except String (List String) :=
  match cs.find? (fun c => !schema.contains c) with
  | some c => .error ("Unexpected column \"" ++ c ++ "\"")
  | none => .ok cs

/-- dataset_abc.py lines 341-348: default `None` to a copy of the full column
schema, wrap a non-list argument into a one-element list, then assert every
requested column is present in the schema. -/
def handle_columns (schema : List String) : ColumnsArg → Except String (List String)
  | .nil => checkColumns schema schema
  | .single c => checkColumns schema [c]
  | .list cs => checkColumns schema cs

/-! ### Ranking evaluation pipeline (spec.md §4.4; implementation not under
src/, fixed by src/tests/Evaluation/Processes/test_ranking_evaluation.py) -/

/-- The `k` option: a single cutoff or a list of cutoffs. -/
inductive KArg
  | single (k : Int)
  | list (ks : List Int)
deriving DecidableEq, Repr

/-- The cutoffs requested by a `k` option. -/
def ksOf : KArg → List Int
  | .single k => [k]
  | .list ks => ks

/-- One value of the `metrics` mapping, as seen by the validator: the Python
shape checks (is it a tuple, is the first element callable, is the second a
dict) are carried as flags, and `fn` is the scoring function applied to a
ranked list and the positive item set. -/
structure MetricVal where
  is_tuple : Bool
  first_callable : Bool
  second_is_dict : Bool
  fn : List Nat → List Nat → Rat

/-- A metric value passes validation when it is a tuple whose first element is
callable and whose second element is a dict. -/
def MetricVal.wellFormed (m : MetricVal) : Bool :=
  m.is_tuple && m.first_callable && m.second_is_dict

/-- The `metrics` argument: either not a dict at all (carrying the name of the
received Python type) or a dict of named metric values. -/
inductive MetricsArg
  | notDict (typeName : String)
  | dict (entries : List (String × MetricVal))

/-- The model collaborator contract of spec.md §6: a training store and a
ranking capability taking a user, a candidate list and a cutoff, returning the
top candidates best-first. -/
structure EvalModel where
  trainStore : Store
  rank : Nat → List Nat → Nat → List Nat

/-- The recognized options of `ranking_evaluation` (spec.md §4.4). -/
structure EvalOptions where
  n_test_users : Option Int
  k : KArg
  n_pos_interactions : Option Int
  n_neg_interactions : Option Int
  generate_negative_pairs : Bool
  interaction_threshold : Option Int
  novelty : Bool
  seed : Nat
  metrics : MetricsArg

/-- An apostrophe character, used in the metrics type-error message. -/
def sq : String := String.singleton (Char.ofNat 39)

/-- Exact message for a non-positive `n_test_users`
(test_ranking_evaluation_13/14). -/
def msgTestUsers (v : Int) : String :=
  "The number of test users (" ++ toString v ++ ") should be > 0."

/-- Exact message for a non-positive cutoff (test_ranking_evaluation_20/21). -/
def msgK (v : Int) : String :=
  "k (" ++ toString v ++ ") should be > 0."

/-- Exact message for a non-positive `n_pos_interactions`
(test_ranking_evaluation_15/16). -/
def msgPos (v : Int) : String :=
  "The number of positive interactions (" ++ toString v ++
    ") should be None or an integer > 0."

/-- Exact message for a non-positive `n_neg_interactions`
(test_ranking_evaluation_17/18). -/
def msgNeg (v : Int) : String :=
  "The number of negative interactions (" ++ toString v ++
    ") should be None or an integer > 0."

/-- Exact message for `generate_negative_pairs=True` with
`n_neg_interactions=None` (test_ranking_evaluation_19). -/
def msgCombo : String :=
  "Cannot generate negative interaction pairs when the number of negative " ++
    "interactions per user is not defined. Either set " ++
    "generate_negative_pairs=False or define the n_neg_interactions parameter."

/-- Exact message for a non-dict `metrics` argument
(test_ranking_evaluation_22). -/
def msgMetricsType (t : String) : String :=
  "Expected \"metrics\" argument to be of type dict and found <class " ++ sq ++
    t ++ sq ++ ">. Should map metric names to a tuple containing the " ++
    "corresponding metric function and an extra argument dict."

/-- Exact message for a malformed `metrics` entry
(test_ranking_evaluation_23/24/25). -/
def msgMetricEntry (name : String) : String :=
  "Expected metric " ++ name ++ " to map to a tuple containing the " ++
    "corresponding metric function and an extra argument dict."

/-- Modelled from the spec: strict validation of the `metrics` option
(spec.md §6): not a mapping gives a type error naming the received type; the
first entry that is not a (callable, dict) tuple gives an error naming the
offending key. -/
def validateMetrics : MetricsArg → Option String
  | .notDict t => some (msgMetricsType t)
  | .dict entries =>
    match entries.find? (fun e => !e.2.wellFormed) with
    | some e => some (msgMetricEntry e.1)
    | none => none

/-- Modelled from the spec: `generate_negative_pairs` requires
`n_neg_interactions` to be set (spec.md §4.4), then the metrics are checked. -/
def validateCombo (o : EvalOptions) : Option String :=
  match o.n_neg_interactions, o.generate_negative_pairs with
  | none, true => some msgCombo
  | _, _ => validateMetrics o.metrics

/-- Modelled from the spec: `n_neg_interactions` must be None or positive. -/
def validateNeg (o : EvalOptions) : Option String :=
  match o.n_neg_interactions with
  | some v => if v ≤ 0 then some (msgNeg v) else validateCombo o
  | none => validateCombo o

/-- Modelled from the spec: `n_pos_interactions` must be None or positive. -/
def validatePos (o : EvalOptions) : Option String :=
  match o.n_pos_interactions with
  | some v => if v ≤ 0 then some (msgPos v) else validateNeg o
  | none => validateNeg o

/-- Modelled from the spec: every requested cutoff must be positive; the first
non-positive one is reported. -/
def validateK (o : EvalOptions) : Option String :=
  match (ksOf o.k).find? (fun kv => kv ≤ 0) with
  | some kv => some (msgK kv)
  | none => validatePos o

/-- Modelled from the spec: `ranking_evaluation` validates each option before
evaluating any user, in the order the options are listed in spec.md §4.4:
`n_test_users`, `k`, `n_pos_interactions`, `n_neg_interactions`, the
`generate_negative_pairs` combination, `metrics`. -/
def validateOptions (o : EvalOptions) : Option String :=
  match o.n_test_users with
  | some v => if v ≤ 0 then some (msgTestUsers v) else validateK o
  | none => validateK o

/-- The largest requested cutoff, as a natural number. -/
def maxKOf (k : KArg) : Nat :=
  ((ksOf k).map Int.toNat).foldr max 0

/-- The rows of a store belonging to one user. -/
def itemsOfUser (ds : Store) (u : Nat) : List Row :=
  ds.filter (fun r => r.uid == u)

/-- The items a user interacted with in the training store, used by novelty
filtering. -/
def knownItems (train : Store) (u : Nat) : List Nat :=
  (itemsOfUser train u).map Row.iid

/-- Modelled from the spec: the user's positive item set, honoring the
interaction threshold (spec.md §4.4 step 1). -/
def rawPositives (evalStore : Store) (t : Option Int) (u : Nat) : List Nat :=
  (((itemsOfUser evalStore u).filter (fun r => thresholdOk t r.value)).map
    Row.iid).dedup

/-- Modelled from the spec: cap the positives at `n_pos_interactions` — cap,
do not pad (spec.md §4.4 step 1). -/
def cappedPositives (evalStore : Store) (t : Option Int) (npos : Option Int)
    (u : Nat) : List Nat :=
  match npos with
  | none => rawPositives evalStore t u
  | some n => (rawPositives evalStore t u).take n.toNat

/-- Modelled from the spec: the user's negatives are either freshly sampled
via the negative-pair generator (when `generate_negative_pairs`), or all
non-positive items among the user's rows (spec.md §4.4 step 2). -/
def rawNegatives (evalStore : Store) (o : EvalOptions) (u : Nat) : List Nat :=
  if o.generate_negative_pairs then
    ((null_interaction_pair_generator evalStore o.interaction_threshold
        (o.seed + u)).filter (fun p => p.1 == u)).map Prod.snd
  else
    (((itemsOfUser evalStore u).filter
        (fun r => !thresholdOk o.interaction_threshold r.value)).map
      Row.iid).dedup

/-- Modelled from the spec: cap the negatives at `n_neg_interactions`; fewer
are silently kept when not enough exist (spec.md §4.4 step 2, §7). -/
def cappedNegatives (evalStore : Store) (o : EvalOptions) (u : Nat) : List Nat :=
  match o.n_neg_interactions with
  | none => rawNegatives evalStore o u
  | some n => (rawNegatives evalStore o u).take n.toNat

/-- Modelled from the spec: with `novelty`, remove any candidate item present
in the user's training interactions (spec.md §4.4 step 3). -/
def noveltyFilter (m : EvalModel) (o : EvalOptions) (u : Nat)
    (items : List Nat) : List Nat :=
  if o.novelty then
    items.filter (fun i => !(knownItems m.trainStore u).contains i)
  else items

/-- The user's ground-truth positives after the novelty filter. -/
def userPositives (m : EvalModel) (evalStore : Store) (o : EvalOptions)
    (u : Nat) : List Nat :=
  noveltyFilter m o u
    (cappedPositives evalStore o.interaction_threshold o.n_pos_interactions u)

/-- The user's negative candidates after the novelty filter. -/
def userNegatives (m : EvalModel) (evalStore : Store) (o : EvalOptions)
    (u : Nat) : List Nat :=
  noveltyFilter m o u (cappedNegatives evalStore o u)

/-- The candidate set ranked for one user: positives plus negatives. -/
def userCandidates (m : EvalModel) (evalStore : Store) (o : EvalOptions)
    (u : Nat) : List Nat :=
  userPositives m evalStore o u ++ userNegatives m evalStore o u

/-- Modelled from the spec: a user with no remaining positives is skipped
(spec.md §4.4 step 4). -/
def userSkipped (m : EvalModel) (evalStore : Store) (o : EvalOptions)
    (u : Nat) : Bool :=
  (userPositives m evalStore o u).isEmpty

/-- Modelled from the spec: the model's ranking capability is invoked once,
at the maximum requested cutoff (spec.md §4.4 step 5). -/
def userRanked (m : EvalModel) (evalStore : Store) (o : EvalOptions)
    (u : Nat) : List Nat :=
  m.rank u (userCandidates m evalStore o u) (maxKOf o.k)

/-- Modelled from the spec: the score at a smaller cutoff is the metric on the
truncation of the single max-cutoff ranked list (spec.md §4.4 steps 5-6). -/
def userScore (m : EvalModel) (evalStore : Store) (o : EvalOptions)
    (mv : MetricVal) (kv : Int) (u : Nat) : Rat :=
  mv.fn ((userRanked m evalStore o u).take kv.toNat)
    (userPositives m evalStore o u)

/-- Modelled from the spec: the evaluation population is every user of the
evaluation store, or a seeded sample of `n_test_users` of them. -/
def testUsers (evalStore : Store) (o : EvalOptions) : List Nat :=
  match o.n_test_users with
  | none => uidsOf evalStore
  | some n => (shuffle o.seed (uidsOf evalStore)).take n.toNat

/-- The evaluated users that were not skipped. -/
def nonSkippedUsers (m : EvalModel) (evalStore : Store) (o : EvalOptions) :
    List Nat :=
  (testUsers evalStore o).filter (fun u => !userSkipped m evalStore o u)

/-- Rounding to 4 decimal places (spec.md §4.4 aggregation). -/
def round4 (q : Rat) : Rat :=
  ((round (q * 10000) : Int) : Rat) / 10000

/-- Modelled from the spec: per metric-per-cutoff aggregation — mean over the
non-skipped users, rounded to 4 decimal places; 0 when every user was
skipped (spec.md §4.4). -/
def aggregate (scores : List Rat) : Rat :=
  if scores.isEmpty then 0 else round4 (scores.sum / (scores.length : Rat))

/-- The entries of a (valid) metrics mapping, in order. -/
def metricEntriesOf : MetricsArg → List (String × MetricVal)
  | .notDict _ => []
  | .dict es => es

/-- Output keys have the form `<MetricName>@<k>` (spec.md §4.4). -/
def metricKey (name : String) (kv : Int) : String :=
  name ++ "@" ++ toString kv

/-- The reported mapping: one entry per configured metric and cutoff. -/
def evalResults (m : EvalModel) (evalStore : Store) (o : EvalOptions) :
    List (String × Rat) :=
  (metricEntriesOf o.metrics).flatMap (fun e =>
    (ksOf o.k).map (fun kv =>
      (metricKey e.1 kv,
        aggregate ((nonSkippedUsers m evalStore o).map
          (userScore m evalStore o e.2 kv)))))

/-- Modelled from the spec: `ranking_evaluation(model, test_store=None,
**options)` — validate all options first (raising with the exact messages of
§4.4), then evaluate per user over the test store (or the model's training
store when none is given) and aggregate (spec.md §4.4). -/
def ranking_evaluation (m : EvalModel) (test_store : Option Store)
    (o : EvalOptions) : Except String (List (String × Rat)) :=
  match validateOptions o with
  | some e => .error e
  | none => .ok (evalResults m (test_store.getD m.trainStore) o)

/-- Modelled from the spec: every seeded operation uses an isolated
pseudo-random source derived from the call's own seed (spec.md §5), so a
call only advances, and never reads, the ambient generator state `r`. -/
def ranking_evaluation_rng (m : EvalModel) (test_store : Option Store)
    (o : EvalOptions) (r : Nat) :
    Except String (List (String × Rat)) × Nat :=
  (ranking_evaluation m test_store o, lcg (r + o.seed))

/-! ### Permutation facts about the seeded shuffle -/

theorem extractAt_perm {α : Type _} :
    ∀ (i : Nat) (xs : List α) (x : α) (rest : List α),
      extractAt i xs = some (x, rest) → xs.Perm (x :: rest) := by
  intro i
  induction i with
  | zero =>
    intro xs x rest h
    cases xs with
    | nil => simp [extractAt] at h
    | cons y ys =>
      simp [extractAt] at h
      obtain ⟨h1, h2⟩ := h
      subst h1; subst h2
      exact List.Perm.refl _
  | succ n ih =>
    intro xs x rest h
    cases xs with
    | nil => simp [extractAt] at h
    | cons y ys =>
      cases hext : extractAt n ys with
      | none => simp [extractAt, hext] at h
      | some p =>
        obtain ⟨a, b⟩ := p
        simp [extractAt, hext] at h
        obtain ⟨h1, h2⟩ := h
        subst h1
        subst h2
        exact (List.Perm.cons y (ih ys a b hext)).trans (List.Perm.swap a y b)

theorem shuffleFuel_perm {α : Type _} :
    ∀ (fuel : Nat) (s : Nat) (xs : List α), xs.length ≤ fuel →
      (shuffleFuel fuel s xs).Perm xs := by
  intro fuel
  induction fuel with
  | zero =>
    intro s xs h
    have : xs = [] := List.eq_nil_of_length_eq_zero (Nat.le_zero.mp h)
    subst this
    simp [shuffleFuel]
  | succ n ih =>
    intro s xs h
    cases xs with
    | nil => simp [shuffleFuel]
    | cons x rest =>
      have hlt : s % (x :: rest).length < (x :: rest).length :=
        Nat.mod_lt _ (by simp)
      unfold shuffleFuel
      cases hext : extractAt (s % (x :: rest).length) (x :: rest) with
      | none =>
        exfalso
        revert hext
        have : ∀ (i : Nat) (ys : List α), i < ys.length →
            (extractAt i ys).isSome := by
          intro i
          induction i with
          | zero =>
            intro ys hy
            cases ys with
            | nil => simp at hy
            | cons a as => simp [extractAt]
          | succ m ihm =>
            intro ys hy
            cases ys with
            | nil => simp at hy
            | cons a as =>
              simp [extractAt]
              exact ihm as (by simpa using Nat.lt_of_succ_lt_succ hy)
        intro hext
        have hs := this (s % (x :: rest).length) (x :: rest) hlt
        rw [hext] at hs
        simp at hs
      | some p =>
        obtain ⟨y, ys⟩ := p
        have hperm : (x :: rest).Perm (y :: ys) :=
          extractAt_perm _ _ _ _ hext
        have hlen : ys.length ≤ n := by
          have hl := hperm.length_eq
          simp only [List.length_cons] at hl h
          omega
        exact (List.Perm.cons y (ih (lcg s) ys hlen)).trans hperm.symm

theorem shuffle_perm {α : Type _} (seed : Nat) (xs : List α) :
    (shuffle seed xs).Perm xs :=
  shuffleFuel_perm xs.length (lcg seed) xs (Nat.le_refl _)

theorem mem_shuffle {α : Type _} {seed : Nat} {xs : List α} {a : α}
    (h : a ∈ shuffle seed xs) : a ∈ xs :=
  (shuffle_perm seed xs).mem_iff.mp h

theorem nodup_shuffle {α : Type _} {seed : Nat} {xs : List α}
    (h : xs.Nodup) : (shuffle seed xs).Nodup :=
  (shuffle_perm seed xs).nodup_iff.mpr h

/-! ### Claim theorems -/

/-- C1: a single generator obtained from `null_interaction_pair_generator`
never yields a (uid, iid) pair that is positive under the threshold predicate
(value ≥ threshold, or merely present in the store when no threshold is
given), and never yields the same pair twice within its lifetime. -/
theorem null_interaction_pair_generator_sound (ds : Store) (t : Option Int)
    (seed : Nat) :
    (∀ p ∈ null_interaction_pair_generator ds t seed,
      positivePair ds t p.1 p.2 = false) ∧
    (null_interaction_pair_generator ds t seed).Nodup := by
  constructor
  · intro p hp
    have hmem : p ∈ (allPairs ds).filter
        (fun p => !positivePair ds t p.1 p.2) := mem_shuffle hp
    have := List.of_mem_filter hmem
    simpa using this
  · apply nodup_shuffle
    apply List.Nodup.filter
    exact List.Nodup.product (List.nodup_dedup _) (List.nodup_dedup _)

/-- Witness for C1 at a concrete two-row store. -/
theorem null_interaction_pair_generator_sound_witness :
    positivePair [Row.mk 0 0 5, Row.mk 1 1 1] none 0 1 = false :=
  (null_interaction_pair_generator_sound [Row.mk 0 0 5, Row.mk 1 1 1]
    none 0).1 (0, 1) (by decide)

/-- C9: `exists` returns true exactly when `select_one` returns a record, and
`select_one` returns the first record of the rows matched by `select` (or
none when no row matches). -/
theorem exists_iff_select_one (ds : Store) (q : Row → Bool) :
    (exists_query ds q = true ↔ (select_one ds q).isSome = true) ∧
    select_one ds q = (select ds q).head? ∧
    (select ds q = [] → select_one ds q = none) := by
  refine ⟨?_, rfl, ?_⟩
  · unfold exists_query
    cases h : select_one ds q <;> simp
  · intro h
    unfold select_one values
    rw [h]
    rfl

/-- Witness for C9 at a concrete store and a query matching nothing. -/
theorem exists_iff_select_one_witness :
    select_one [Row.mk 0 0 1] (fun _ => false) = none :=
  (exists_iff_select_one [Row.mk 0 0 1] (fun _ => false)).2.2 (by decide)

/-- C10: the column-argument normalizer returns a copy of the full schema when
given None, wraps a bare column name into a one-element list (accepting it
exactly when it is in the schema), returns a fully-present requested list
unchanged, and raises `Unexpected column "<c>"` exactly when some requested
column is absent from the schema. -/
theorem handle_columns_spec (schema : List String) :
    handle_columns schema .nil = .ok schema ∧
    (∀ c : String, handle_columns schema (.single c) =
      if schema.contains c then .ok [c]
      else .error ("Unexpected column \"" ++ c ++ "\"")) ∧
    (∀ cs : List String, (∀ c ∈ cs, c ∈ schema) →
      handle_columns schema (.list cs) = .ok cs) ∧
    (∀ cs : List String, (∃ c ∈ cs, c ∉ schema) →
      ∃ c ∈ cs, c ∉ schema ∧ handle_columns schema (.list cs) =
        .error ("Unexpected column \"" ++ c ++ "\"")) := by
  refine ⟨?_, ?_, ?_, ?_⟩
  · unfold handle_columns checkColumns
    have : schema.find? (fun c => !schema.contains c) = none := by
      rw [List.find?_eq_none]
      intro x hx
      simp [hx]
    rw [this]
  · intro c
    simp only [handle_columns, checkColumns, List.find?]
    by_cases h : c ∈ schema
    · simp [h]
    · simp [h]
  · intro cs hall
    simp only [handle_columns, checkColumns]
    have : cs.find? (fun c => !schema.contains c) = none := by
      rw [List.find?_eq_none]
      intro x hx
      simpa using hall x hx
    rw [this]
  · intro cs hbad
    obtain ⟨c0, hc0, hnot⟩ := hbad
    have hsome : (cs.find? (fun c => !schema.contains c)).isSome := by
      rw [List.find?_isSome]
      exact ⟨c0, hc0, by simpa using hnot⟩
    obtain ⟨c, hc⟩ := Option.isSome_iff_exists.mp hsome
    refine ⟨c, List.mem_of_find?_eq_some hc, ?_, ?_⟩
    · have := List.find?_some hc
      simpa using this
    · simp only [handle_columns, checkColumns]
      rw [hc]

/-- Witness for C10: a present requested list passes unchanged, an absent
column is reported by name. -/
theorem handle_columns_spec_witness :
    handle_columns ["user", "item"] (.list ["user"]) = .ok ["user"] ∧
    ∃ c ∈ ["score"], c ∉ ["user", "item"] ∧
      handle_columns ["user", "item"] (.list ["score"]) =
        .error ("Unexpected column \"" ++ c ++ "\"") :=
  ⟨(handle_columns_spec ["user", "item"]).2.2.1 ["user"] (by decide),
   (handle_columns_spec ["user", "item"]).2.2.2 ["score"]
     ⟨"score", by decide⟩⟩

/-- C2: when every evaluated user is skipped, the returned mapping still has a
`<MetricName>@<k>` key for every configured metric and cutoff, and every
value is 0; skipped users contribute nothing to aggregation. -/
theorem ranking_evaluation_all_skipped (m : EvalModel) (ts : Option Store)
    (o : EvalOptions) (hv : validateOptions o = none)
    (hs : ∀ u ∈ testUsers (ts.getD m.trainStore) o,
      userSkipped m (ts.getD m.trainStore) o u = true) :
    ranking_evaluation m ts o =
      .ok ((metricEntriesOf o.metrics).flatMap (fun e =>
        (ksOf o.k).map (fun kv => (metricKey e.1 kv, (0 : Rat))))) := by
  have hns : nonSkippedUsers m (ts.getD m.trainStore) o = [] := by
    unfold nonSkippedUsers
    rw [List.filter_eq_nil_iff]
    intro a ha
    simp [hs a ha]
  unfold ranking_evaluation
  rw [hv]
  unfold evalResults
  rw [hns]
  simp [aggregate]

set_option maxRecDepth 10000 in
/-- Witness for C2: train-time evaluation with novelty on a one-row store
skips the only user and reports 0. -/
theorem ranking_evaluation_all_skipped_witness :
    ranking_evaluation ⟨[Row.mk 0 0 1], fun _ c _ => c⟩ none
      ⟨none, .single 2, none, none, false, none, true, 0,
        .dict [("P", ⟨true, true, true, fun _ _ => 1⟩)]⟩ =
      .ok [("P@2", (0 : Rat))] := by
  rw [ranking_evaluation_all_skipped _ _ _ (by decide) (by decide)]
  rfl

/-- C3: given fixed model, store and options (with their seed), two
consecutive invocations of `ranking_evaluation` return identical metric
mappings, and an unrelated seeded call interleaved between them does not
perturb the result: the output never reads the ambient generator state. -/
theorem ranking_evaluation_rng_deterministic (m m2 : EvalModel)
    (ts ts2 : Option Store) (o o2 : EvalOptions) (r : Nat) :
    (ranking_evaluation_rng m ts o
        ((ranking_evaluation_rng m ts o r).2)).1 =
      (ranking_evaluation_rng m ts o r).1 ∧
    (ranking_evaluation_rng m ts o
        ((ranking_evaluation_rng m2 ts2 o2 r).2)).1 =
      (ranking_evaluation_rng m ts o r).1 := by
  constructor <;> simp [ranking_evaluation_rng]

/-- C4: the result of `ranking_evaluation` depends on the model's ranking
capability only through its value at the maximum requested cutoff (so it is
invoked once, at max k), and each smaller cutoff's per-user score is the
metric computed on the truncation of that same max-cutoff ranked list. -/
theorem ranking_evaluation_rank_at_max_k (m1 m2 : EvalModel) (ts : Option Store)
    (o : EvalOptions) (hts : m1.trainStore = m2.trainStore)
    (hrk : ∀ u c, m1.rank u c (maxKOf o.k) = m2.rank u c (maxKOf o.k)) :
    ranking_evaluation m1 ts o = ranking_evaluation m2 ts o ∧
    ∀ es mv kv u, userScore m1 es o mv kv u =
      mv.fn ((m1.rank u (userCandidates m1 es o u) (maxKOf o.k)).take kv.toNat)
        (userPositives m1 es o u) := by
  have hP : ∀ es u, userPositives m1 es o u = userPositives m2 es o u := by
    intro es u
    unfold userPositives noveltyFilter knownItems
    rw [hts]
  have hN : ∀ es u, userNegatives m1 es o u = userNegatives m2 es o u := by
    intro es u
    unfold userNegatives noveltyFilter knownItems
    rw [hts]
  have hC : ∀ es u, userCandidates m1 es o u = userCandidates m2 es o u := by
    intro es u
    unfold userCandidates
    rw [hP, hN]
  have hSk : ∀ es u, userSkipped m1 es o u = userSkipped m2 es o u := by
    intro es u
    unfold userSkipped
    rw [hP]
  have hR : ∀ es u, userRanked m1 es o u = userRanked m2 es o u := by
    intro es u
    unfold userRanked
    rw [hC, hrk]
  have hSc : ∀ es mv kv,
      userScore m1 es o mv kv = userScore m2 es o mv kv := by
    intro es mv kv
    funext u
    unfold userScore
    rw [hR, hP]
  have hNS : ∀ es, nonSkippedUsers m1 es o = nonSkippedUsers m2 es o := by
    intro es
    unfold nonSkippedUsers
    simp only [hSk]
  have hES : ts.getD m1.trainStore = ts.getD m2.trainStore := by rw [hts]
  constructor
  · unfold ranking_evaluation
    cases hvo : validateOptions o with
    | some e => rfl
    | none =>
      unfold evalResults
      rw [hES]
      simp only [hNS, hSc]
  · intro es mv kv u
    rfl

/-- Witness for C4: two models agreeing only at cutoff 2 (the max requested)
produce identical evaluations. -/
theorem ranking_evaluation_rank_at_max_k_witness :
    ranking_evaluation
        ⟨[Row.mk 0 0 1, Row.mk 0 1 0], fun _ c n => c.take n⟩ none
        ⟨none, .single 2, none, none, false, none, false, 0,
          .dict [("P", ⟨true, true, true, fun _ _ => 1⟩)]⟩ =
      ranking_evaluation
        ⟨[Row.mk 0 0 1, Row.mk 0 1 0],
          fun _ c n => if n = 2 then c.take 2 else []⟩ none
        ⟨none, .single 2, none, none, false, none, false, 0,
          .dict [("P", ⟨true, true, true, fun _ _ => 1⟩)]⟩ :=
  (ranking_evaluation_rank_at_max_k _ _ none _ rfl (fun _ _ => rfl)).1

/-- A non-empty score list aggregates to the rounded arithmetic mean. -/
theorem aggregate_eq_round4_mean {scores : List Rat} (h : scores ≠ []) :
    aggregate scores = round4 (scores.sum / (scores.length : Rat)) := by
  unfold aggregate
  rw [if_neg]
  simp only [List.isEmpty_iff]
  exact h

/-- C5: with at least one non-skipped user, every output key has the form
`<MetricName>@<k>` and the value reported under it is the arithmetic mean of
that metric at that cutoff over exactly the non-skipped users, rounded to 4
decimal places. -/
theorem ranking_evaluation_aggregation (m : EvalModel) (ts : Option Store)
    (o : EvalOptions) (hv : validateOptions o = none)
    (hns : nonSkippedUsers m (ts.getD m.trainStore) o ≠ []) :
    ranking_evaluation m ts o =
      .ok ((metricEntriesOf o.metrics).flatMap (fun e =>
        (ksOf o.k).map (fun kv =>
          (e.1 ++ "@" ++ toString kv,
            round4 (((nonSkippedUsers m (ts.getD m.trainStore) o).map
                (userScore m (ts.getD m.trainStore) o e.2 kv)).sum /
              ((nonSkippedUsers m (ts.getD m.trainStore) o).length : Rat)))))) := by
  unfold ranking_evaluation
  rw [hv]
  show Except.ok (evalResults m (ts.getD m.trainStore) o) = _
  congr 1
  unfold evalResults metricKey
  congr 1
  funext e
  congr 1
  funext kv
  congr 1
  rw [aggregate_eq_round4_mean, List.length_map]
  intro hmap
  exact hns (List.map_eq_nil_iff.mp hmap)

/-- Concrete one-user model for the C5 witness. -/
def w5model : EvalModel :=
  ⟨[Row.mk 0 0 1], fun _ c _ => c⟩

/-- Concrete options for the C5 witness: one metric, one cutoff. -/
def w5opts : EvalOptions :=
  ⟨none, .single 2, none, none, false, none, false, 0,
    .dict [("P", ⟨true, true, true, fun _ _ => 0⟩)]⟩

set_option maxRecDepth 10000 in
/-- Witness for C5: one non-skipped user, one metric, one cutoff. -/
theorem ranking_evaluation_aggregation_witness :
    ranking_evaluation w5model none w5opts = .ok [("P@2", (0 : Rat))] := by
  rw [ranking_evaluation_aggregation _ _ _ (by decide) (by decide)]
  have hns : nonSkippedUsers w5model (Option.getD none w5model.trainStore)
      w5opts = [0] := by decide
  rw [hns]
  norm_num [w5opts, w5model, metricEntriesOf, ksOf, userScore, round4]
  rfl

/-- The `n_test_users` check passes when the option is absent or positive. -/
theorem validateOptions_eq_validateK (o : EvalOptions)
    (h1 : ∀ v, o.n_test_users = some v → 0 < v) :
    validateOptions o = validateK o := by
  unfold validateOptions
  cases hnt : o.n_test_users with
  | none => rfl
  | some v =>
    have hgt := not_le.mpr (h1 v hnt)
    simp [hgt]

/-- The cutoff check passes when every requested cutoff is positive. -/
theorem validateK_eq_validatePos (o : EvalOptions)
    (h2 : ∀ kv ∈ ksOf o.k, 0 < kv) :
    validateK o = validatePos o := by
  unfold validateK
  have hfind : (ksOf o.k).find? (fun kv => kv ≤ 0) = none := by
    rw [List.find?_eq_none]
    intro x hx
    simp only [decide_eq_true_eq]
    exact not_le.mpr (h2 x hx)
  rw [hfind]

/-- The `n_pos_interactions` check passes when absent or positive. -/
theorem validatePos_eq_validateNeg (o : EvalOptions)
    (h3 : ∀ v, o.n_pos_interactions = some v → 0 < v) :
    validatePos o = validateNeg o := by
  unfold validatePos
  cases hnp : o.n_pos_interactions with
  | none => rfl
  | some v =>
    have hgt := not_le.mpr (h3 v hnp)
    simp [hgt]

/-- The `n_neg_interactions` check passes when absent or positive. -/
theorem validateNeg_eq_validateCombo (o : EvalOptions)
    (h4 : ∀ v, o.n_neg_interactions = some v → 0 < v) :
    validateNeg o = validateCombo o := by
  unfold validateNeg
  cases hnn : o.n_neg_interactions with
  | none => rfl
  | some v =>
    have hgt := not_le.mpr (h4 v hnn)
    simp [hgt]

/-- The combination check passes when `generate_negative_pairs` implies a set
`n_neg_interactions`. -/
theorem validateCombo_eq_validateMetrics (o : EvalOptions)
    (h5 : o.generate_negative_pairs = true → o.n_neg_interactions ≠ none) :
    validateCombo o = validateMetrics o.metrics := by
  unfold validateCombo
  cases hnn : o.n_neg_interactions with
  | some v =>
    cases hb : o.generate_negative_pairs with
    | false => rfl
    | true => rfl
  | none =>
    cases hb : o.generate_negative_pairs with
    | false => rfl
    | true => exact absurd hnn (h5 hb)

/-- C6: `ranking_evaluation` validates each numeric option before evaluating
any user, raising the exact per-option message and returning no metric
mapping: a non-positive `n_test_users`, any non-positive requested cutoff, a
non-positive `n_pos_interactions`, a non-positive `n_neg_interactions`. -/
theorem ranking_evaluation_numeric_validation (m : EvalModel)
    (ts : Option Store) (o : EvalOptions) :
    (∀ v, o.n_test_users = some v → v ≤ 0 →
      ranking_evaluation m ts o = .error (msgTestUsers v)) ∧
    ((∀ v, o.n_test_users = some v → 0 < v) →
      ∀ kv, (ksOf o.k).find? (fun x => x ≤ 0) = some kv →
        ranking_evaluation m ts o = .error (msgK kv)) ∧
    ((∀ v, o.n_test_users = some v → 0 < v) →
      (∀ kv ∈ ksOf o.k, 0 < kv) →
      ∀ v, o.n_pos_interactions = some v → v ≤ 0 →
        ranking_evaluation m ts o = .error (msgPos v)) ∧
    ((∀ v, o.n_test_users = some v → 0 < v) →
      (∀ kv ∈ ksOf o.k, 0 < kv) →
      (∀ v, o.n_pos_interactions = some v → 0 < v) →
      ∀ v, o.n_neg_interactions = some v → v ≤ 0 →
        ranking_evaluation m ts o = .error (msgNeg v)) := by
  refine ⟨?_, ?_, ?_, ?_⟩
  · intro v hveq hvle
    have hval : validateOptions o = some (msgTestUsers v) := by
      unfold validateOptions
      rw [hveq]
      simp [hvle]
    unfold ranking_evaluation
    rw [hval]
  · intro h1 kv hfind
    have hval : validateK o = some (msgK kv) := by
      unfold validateK
      rw [hfind]
    unfold ranking_evaluation
    rw [validateOptions_eq_validateK o h1, hval]
  · intro h1 h2 v hveq hvle
    have hval : validatePos o = some (msgPos v) := by
      unfold validatePos
      rw [hveq]
      simp [hvle]
    unfold ranking_evaluation
    rw [validateOptions_eq_validateK o h1, validateK_eq_validatePos o h2, hval]
  · intro h1 h2 h3 v hveq hvle
    have hval : validateNeg o = some (msgNeg v) := by
      unfold validateNeg
      rw [hveq]
      simp [hvle]
    unfold ranking_evaluation
    rw [validateOptions_eq_validateK o h1, validateK_eq_validatePos o h2,
      validatePos_eq_validateNeg o h3, hval]

/-- Witness for C6 at the four concrete invalid option sets of the tests. -/
theorem ranking_evaluation_numeric_validation_witness :
    ranking_evaluation ⟨[], fun _ c _ => c⟩ none
      ⟨some 0, .single 2, none, none, false, none, false, 0, .dict []⟩ =
      .error (msgTestUsers 0) ∧
    ranking_evaluation ⟨[], fun _ c _ => c⟩ none
      ⟨none, .single 0, none, none, false, none, false, 0, .dict []⟩ =
      .error (msgK 0) ∧
    ranking_evaluation ⟨[], fun _ c _ => c⟩ none
      ⟨none, .single 2, some 0, none, false, none, false, 0, .dict []⟩ =
      .error (msgPos 0) ∧
    ranking_evaluation ⟨[], fun _ c _ => c⟩ none
      ⟨none, .single 2, none, some (-1), false, none, false, 0, .dict []⟩ =
      .error (msgNeg (-1)) :=
  ⟨(ranking_evaluation_numeric_validation _ _ _).1 0 rfl (by decide),
   (ranking_evaluation_numeric_validation _ _ _).2.1
     (fun _ h => Option.noConfusion h) 0 (by decide),
   (ranking_evaluation_numeric_validation _ _ _).2.2.1
     (fun _ h => Option.noConfusion h) (by decide) 0 rfl (by decide),
   (ranking_evaluation_numeric_validation _ _ _).2.2.2
     (fun _ h => Option.noConfusion h) (by decide)
     (fun _ h => Option.noConfusion h) (-1) rfl (by decide)⟩

/-- C7: `generate_negative_pairs=True` with `n_neg_interactions=None` raises
the fixed combination error during validation, before any per-user
evaluation, instead of returning a result. -/
theorem ranking_evaluation_generate_combo (m : EvalModel) (ts : Option Store)
    (o : EvalOptions)
    (h1 : ∀ v, o.n_test_users = some v → 0 < v)
    (h2 : ∀ kv ∈ ksOf o.k, 0 < kv)
    (h3 : ∀ v, o.n_pos_interactions = some v → 0 < v)
    (hg : o.generate_negative_pairs = true)
    (hn : o.n_neg_interactions = none) :
    ranking_evaluation m ts o = .error msgCombo := by
  have hval : validateNeg o = some msgCombo := by
    unfold validateNeg
    rw [hn]
    show validateCombo o = some msgCombo
    unfold validateCombo
    rw [hn, hg]
  unfold ranking_evaluation
  rw [validateOptions_eq_validateK o h1, validateK_eq_validatePos o h2,
    validatePos_eq_validateNeg o h3, hval]

/-- Witness for C7 at the concrete option set of test_ranking_evaluation_19. -/
theorem ranking_evaluation_generate_combo_witness :
    ranking_evaluation ⟨[], fun _ c _ => c⟩ none
      ⟨none, .single 2, none, none, true, none, false, 0, .dict []⟩ =
      .error msgCombo :=
  ranking_evaluation_generate_combo _ _ _
    (fun _ h => Option.noConfusion h) (by decide)
    (fun _ h => Option.noConfusion h) rfl rfl

/-- C8: the `metrics` option is validated strictly: a non-mapping raises a
type error identifying the received type; the first entry that is not a
(callable, dict) tuple raises an error naming that key; a well-formed mapping
raises no metrics-validation error. -/
theorem ranking_evaluation_metrics_strict (m : EvalModel) (ts : Option Store)
    (o : EvalOptions)
    (h1 : ∀ v, o.n_test_users = some v → 0 < v)
    (h2 : ∀ kv ∈ ksOf o.k, 0 < kv)
    (h3 : ∀ v, o.n_pos_interactions = some v → 0 < v)
    (h4 : ∀ v, o.n_neg_interactions = some v → 0 < v)
    (h5 : o.generate_negative_pairs = true → o.n_neg_interactions ≠ none) :
    (∀ t, o.metrics = .notDict t →
      ranking_evaluation m ts o = .error (msgMetricsType t)) ∧
    (∀ entries e, o.metrics = .dict entries →
      entries.find? (fun x => !x.2.wellFormed) = some e →
      ranking_evaluation m ts o = .error (msgMetricEntry e.1)) ∧
    (∀ entries, o.metrics = .dict entries →
      (∀ e ∈ entries, e.2.wellFormed = true) →
      ∃ out, ranking_evaluation m ts o = .ok out) := by
  have hchain : validateOptions o = validateMetrics o.metrics := by
    rw [validateOptions_eq_validateK o h1, validateK_eq_validatePos o h2,
      validatePos_eq_validateNeg o h3, validateNeg_eq_validateCombo o h4,
      validateCombo_eq_validateMetrics o h5]
  refine ⟨?_, ?_, ?_⟩
  · intro t hmet
    unfold ranking_evaluation
    rw [hchain, hmet]
    rfl
  · intro entries e hmet hfind
    have hval : validateMetrics o.metrics = some (msgMetricEntry e.1) := by
      rw [hmet]
      simp only [validateMetrics]
      rw [hfind]
    unfold ranking_evaluation
    rw [hchain, hval]
  · intro entries hmet hwf
    have hval : validateMetrics o.metrics = none := by
      rw [hmet]
      simp only [validateMetrics]
      have hfind : entries.find? (fun x => !x.2.wellFormed) = none := by
        rw [List.find?_eq_none]
        intro x hx
        simp [hwf x hx]
      rw [hfind]
    refine ⟨evalResults m (ts.getD m.trainStore) o, ?_⟩
    unfold ranking_evaluation
    rw [hchain, hval]

/-- Witness for C8: a non-dict metrics argument, a malformed entry, and a
well-formed mapping, each at a concrete option set. -/
theorem ranking_evaluation_metrics_strict_witness :
    ranking_evaluation ⟨[], fun _ c _ => c⟩ none
      ⟨none, .single 2, none, none, false, none, false, 0,
        .notDict "list"⟩ = .error (msgMetricsType "list") ∧
    ranking_evaluation ⟨[], fun _ c _ => c⟩ none
      ⟨none, .single 2, none, none, false, none, false, 0,
        .dict [("A", ⟨false, true, true, fun _ _ => 0⟩)]⟩ =
      .error (msgMetricEntry "A") ∧
    ∃ out, ranking_evaluation ⟨[], fun _ c _ => c⟩ none
      ⟨none, .single 2, none, none, false, none, false, 0,
        .dict [("A", ⟨true, true, true, fun _ _ => 0⟩)]⟩ = .ok out :=
  ⟨(ranking_evaluation_metrics_strict _ _ _
      (fun _ h => Option.noConfusion h) (by decide)
      (fun _ h => Option.noConfusion h) (fun _ h => Option.noConfusion h)
      (fun hg => Bool.noConfusion hg)).1 "list" rfl,
   (ranking_evaluation_metrics_strict _ _ _
      (fun _ h => Option.noConfusion h) (by decide)
      (fun _ h => Option.noConfusion h) (fun _ h => Option.noConfusion h)
      (fun hg => Bool.noConfusion hg)).2.1
      [("A", ⟨false, true, true, fun _ _ => 0⟩)]
      ("A", ⟨false, true, true, fun _ _ => 0⟩) rfl rfl,
   (ranking_evaluation_metrics_strict _ _ _
      (fun _ h => Option.noConfusion h) (by decide)
      (fun _ h => Option.noConfusion h) (fun _ h => Option.noConfusion h)
      (fun hg => Bool.noConfusion hg)).2.2 _ rfl
      (by
        intro e he
        rw [List.mem_singleton] at he
        rw [he]
        rfl)⟩

end DRecPy
